import Mathlib

/-
Verification of the PyAscent climb-detection core (src/climb_detector.py)
against its natural-language specification.

The detector is embedded shallowly: Python floats become exact rationals
(ℚ), the two parallel input arrays become lists, the scan loop over
`range(1, len(distances))` becomes a `List.foldl` over `List.range' 1 k`,
and `np.convolve(elevations, np.ones(w)/w, mode='same')` is modelled by
its defining window sum (zero-padded at the boundaries, centred with
offset `(w-1)/2`, always divided by the full window width `w`).

A second, instrumented embedding (`...Checked`) replaces every division
the Python code performs by an `Option`-valued checked division, so that
"no division by zero occurs" is a provable statement.
-/

namespace PyAscent

/-- Configuration of `ClimbDetector.__init__`: minimum average gradient (%),
minimum elevation gain (m) and minimum distance (km) for a climb. -/
structure Config where
  minGradient : ℚ
  minElevationGain : ℚ
  minDistance : ℚ
deriving DecidableEq

/-- The default thresholds of `ClimbDetector.__init__`:
`min_gradient=3.0`, `min_elevation_gain=20.0`, `min_distance=0.3`. -/
def defaultConfig : Config := ⟨3, 20, 3/10⟩

/-- One climb record, mirroring the dict appended by `detect_climbs`. -/
structure Climb where
  startIdx : ℕ
  endIdx : ℕ
  startDistance : ℚ
  endDistance : ℚ
  startElevation : ℚ
  endElevation : ℚ
  elevationGain : ℚ
  distance : ℚ
  avgGradient : ℚ
  category : String
deriving DecidableEq

/-- The category if-chain of `ClimbDetector._categorize_climb`. -/
def categorizeClimb (minElevationGain elevationGain avgGradient : ℚ) : String :=
  let difficultyScore := elevationGain * avgGradient
  if difficultyScore > 8000 ∨ elevationGain > 1200 then "HC"
  else if difficultyScore > 5000 ∨ elevationGain > 800 then "1"
  else if difficultyScore > 3000 ∨ elevationGain > 500 then "2"
  else if difficultyScore > 1500 ∨ elevationGain > 300 then "3"
  else if elevationGain ≥ minElevationGain then "4"
  else "Uncategorized"

/-- The smoothing window width `min(5, len(elevations) // 10)` computed in
`detect_climbs`. -/
def windowSize (elevations : List ℚ) : ℕ := min 5 (elevations.length / 10)

/-- Value at index `i` of `np.convolve(elevations, np.ones(w)/w, mode='same')`:
the zero-padded window sum over indices `m` with
`i + (w-1)/2 - (w-1) ≤ m ≤ i + (w-1)/2` (clamped to the array), divided by
the full window width `w`. -/
def smoothedAt (elevations : List ℚ) (w i : ℕ) : ℚ :=
  (((List.range elevations.length).filter
      (fun m => i + (w - 1) / 2 < m + w ∧ m ≤ i + (w - 1) / 2)).map
    (fun m => elevations.getD m 0)).sum / (w : ℚ)

/-- The smoothed elevation series of `detect_climbs`: the moving average is
applied only when the window width exceeds 1, otherwise the raw series is
used unchanged. -/
def smoothElevations (elevations : List ℚ) : List ℚ :=
  let w := windowSize elevations
  if w > 1 then (List.range elevations.length).map (smoothedAt elevations w)
  else elevations

/-- The mutable loop state of `detect_climbs`: the `in_climb` flag,
`climb_start_idx`, `climb_start_elevation` and the accumulated `climbs`. -/
structure ScanState where
  inClimb : Bool
  climbStartIdx : ℕ
  climbStartElevation : ℚ
  climbs : List Climb
deriving DecidableEq

/-- The loop state before the first iteration of `detect_climbs`. -/
def initState : ScanState := ⟨false, 0, 0, []⟩

/-- One iteration of the scan loop of `detect_climbs` at index `i`. -/
def loopStep (cfg : Config) (distances smoothed elevations : List ℚ)
    (st : ScanState) (i : ℕ) : ScanState :=
  let elevationDiff := smoothed.getD i 0 - smoothed.getD (i - 1) 0
  let distanceDiff := distances.getD i 0 - distances.getD (i - 1) 0
  if distanceDiff > 0 then
    let gradient := elevationDiff / (distanceDiff * 1000) * 100
    if st.inClimb = false ∧ gradient > cfg.minGradient then
      ⟨true, i, smoothed.getD i 0, st.climbs⟩
    else if st.inClimb = true ∧ gradient < 0 then
      let elevationGain := smoothed.getD (i - 1) 0 - st.climbStartElevation
      let climbs :=
        if elevationGain ≥ cfg.minElevationGain then
          let climbDistance :=
            distances.getD (i - 1) 0 - distances.getD st.climbStartIdx 0
          let avgGradient :=
            if climbDistance > 0 then
              elevationGain / (climbDistance * 1000) * 100
            else 0
          if climbDistance ≥ cfg.minDistance then
            st.climbs ++ [⟨st.climbStartIdx, i - 1,
              distances.getD st.climbStartIdx 0, distances.getD (i - 1) 0,
              elevations.getD st.climbStartIdx 0, elevations.getD (i - 1) 0,
              elevationGain, climbDistance, avgGradient,
              categorizeClimb cfg.minElevationGain elevationGain avgGradient⟩]
          else st.climbs
        else st.climbs
      ⟨false, st.climbStartIdx, st.climbStartElevation, climbs⟩
    else st
  else st

/-- The loop state after the first `k` iterations of the scan loop
(indices `1, …, k`). -/
def scanStateAfter (cfg : Config) (distances smoothed elevations : List ℚ)
    (k : ℕ) : ScanState :=
  (List.range' 1 k).foldl (loopStep cfg distances smoothed elevations) initState

/-- The closing evaluation a climb undergoes when it is closed at
`end_index = endIdx`: qualify on elevation gain and distance, and emit at
most one populated record. Both the in-loop close (at `end_index = i-1`)
and the end-of-route close (at `end_index = N-1`) of `detect_climbs`
perform exactly this computation. -/
def closingEval (cfg : Config) (distances smoothed elevations : List ℚ)
    (startIdx : ℕ) (startElevation : ℚ) (endIdx : ℕ) : List Climb :=
  let elevationGain := smoothed.getD endIdx 0 - startElevation
  if elevationGain ≥ cfg.minElevationGain then
    let climbDistance := distances.getD endIdx 0 - distances.getD startIdx 0
    let avgGradient :=
      if climbDistance > 0 then elevationGain / (climbDistance * 1000) * 100
      else 0
    if climbDistance ≥ cfg.minDistance then
      [⟨startIdx, endIdx,
        distances.getD startIdx 0, distances.getD endIdx 0,
        elevations.getD startIdx 0, elevations.getD endIdx 0,
        elevationGain, climbDistance, avgGradient,
        categorizeClimb cfg.minElevationGain elevationGain avgGradient⟩]
    else []
  else []

/-- The full `ClimbDetector.detect_climbs`: smooth, scan every index from 1
to `len(distances) - 1`, and close a still-open climb at the final index
(`smoothed_elevations[-1]`, `distances[-1]`, `end_idx = len(distances)-1`). -/
def detectClimbs (cfg : Config) (distances elevations : List ℚ) : List Climb :=
  let smoothed := smoothElevations elevations
  let final := scanStateAfter cfg distances smoothed elevations
    (distances.length - 1)
  if final.inClimb = true then
    let elevationGain :=
      smoothed.getD (smoothed.length - 1) 0 - final.climbStartElevation
    if elevationGain ≥ cfg.minElevationGain then
      let climbDistance := distances.getD (distances.length - 1) 0 -
        distances.getD final.climbStartIdx 0
      let avgGradient :=
        if climbDistance > 0 then
          elevationGain / (climbDistance * 1000) * 100
        else 0
      if climbDistance ≥ cfg.minDistance then
        final.climbs ++ [⟨final.climbStartIdx, distances.length - 1,
          distances.getD final.climbStartIdx 0,
          distances.getD (distances.length - 1) 0,
          elevations.getD final.climbStartIdx 0,
          elevations.getD (elevations.length - 1) 0,
          elevationGain, climbDistance, avgGradient,
          categorizeClimb cfg.minElevationGain elevationGain avgGradient⟩]
      else final.climbs
    else final.climbs
  else final.climbs

/-- Division instrumented for division-by-zero detection: `none` exactly
when the divisor is zero. -/
def divChecked (a b : ℚ) : Option ℚ := if b = 0 then none else some (a / b)

/-- The smoothing window value with its division by `w` checked. -/
def smoothedAtChecked (elevations : List ℚ) (w i : ℕ) : Option ℚ :=
  divChecked
    (((List.range elevations.length).filter
      (fun m => i + (w - 1) / 2 < m + w ∧ m ≤ i + (w - 1) / 2)).map
      (fun m => elevations.getD m 0)).sum (w : ℚ)

/-- The smoothed series with every division checked. -/
def smoothElevationsChecked (elevations : List ℚ) : Option (List ℚ) :=
  let w := windowSize elevations
  if w > 1 then
    (List.range elevations.length).mapM (smoothedAtChecked elevations w)
  else some elevations

/-- One scan-loop iteration with every division the Python code performs
replaced by a checked division. -/
def loopStepChecked (cfg : Config) (distances smoothed elevations : List ℚ)
    (st : ScanState) (i : ℕ) : Option ScanState :=
  let elevationDiff := smoothed.getD i 0 - smoothed.getD (i - 1) 0
  let distanceDiff := distances.getD i 0 - distances.getD (i - 1) 0
  if distanceDiff > 0 then
    (divChecked elevationDiff (distanceDiff * 1000)).bind fun q =>
      let gradient := q * 100
      if st.inClimb = false ∧ gradient > cfg.minGradient then
        some ⟨true, i, smoothed.getD i 0, st.climbs⟩
      else if st.inClimb = true ∧ gradient < 0 then
        let elevationGain := smoothed.getD (i - 1) 0 - st.climbStartElevation
        (if elevationGain ≥ cfg.minElevationGain then
          let climbDistance :=
            distances.getD (i - 1) 0 - distances.getD st.climbStartIdx 0
          (if climbDistance > 0 then
            (divChecked elevationGain (climbDistance * 1000)).map (· * 100)
          else some 0).bind fun avgGradient =>
            if climbDistance ≥ cfg.minDistance then
              some (st.climbs ++ [⟨st.climbStartIdx, i - 1,
                distances.getD st.climbStartIdx 0, distances.getD (i - 1) 0,
                elevations.getD st.climbStartIdx 0, elevations.getD (i - 1) 0,
                elevationGain, climbDistance, avgGradient,
                categorizeClimb cfg.minElevationGain elevationGain avgGradient⟩])
            else some st.climbs
        else some st.climbs).map fun climbs =>
          ⟨false, st.climbStartIdx, st.climbStartElevation, climbs⟩
      else some st
  else some st

/-- The full detector with every division checked: evaluates to `none` if
and only if some division by zero would occur on the way. -/
def detectClimbsChecked (cfg : Config) (distances elevations : List ℚ) :
    Option (List Climb) :=
  (smoothElevationsChecked elevations).bind fun smoothed =>
  ((List.range' 1 (distances.length - 1)).foldlM
      (loopStepChecked cfg distances smoothed elevations) initState).bind
    fun final =>
  if final.inClimb = true then
    let elevationGain :=
      smoothed.getD (smoothed.length - 1) 0 - final.climbStartElevation
    if elevationGain ≥ cfg.minElevationGain then
      let climbDistance := distances.getD (distances.length - 1) 0 -
        distances.getD final.climbStartIdx 0
      (if climbDistance > 0 then
        (divChecked elevationGain (climbDistance * 1000)).map (· * 100)
      else some 0).bind fun avgGradient =>
        if climbDistance ≥ cfg.minDistance then
          some (final.climbs ++ [⟨final.climbStartIdx, distances.length - 1,
            distances.getD final.climbStartIdx 0,
            distances.getD (distances.length - 1) 0,
            elevations.getD final.climbStartIdx 0,
            elevations.getD (elevations.length - 1) 0,
            elevationGain, climbDistance, avgGradient,
            categorizeClimb cfg.minElevationGain elevationGain avgGradient⟩])
        else some final.climbs
    else some final.climbs
  else some final.climbs

/-- Classifier table as the specification words it (§4.3): an ordered list
of rows, evaluated top to bottom, first match wins, `Uncategorized` as the
fallthrough. Written from the spec to be compared with `categorizeClimb`. -/
def specCategorize (minElevationGain elevationGain avgGradient : ℚ) : String :=
  let score := elevationGain * avgGradient
  let rows : List (Bool × String) :=
    [(decide (score > 8000 ∨ elevationGain > 1200), "HC"),
     (decide (score > 5000 ∨ elevationGain > 800), "1"),
     (decide (score > 3000 ∨ elevationGain > 500), "2"),
     (decide (score > 1500 ∨ elevationGain > 300), "3"),
     (decide (elevationGain ≥ minElevationGain), "4")]
  ((rows.find? (fun r => r.1)).map (fun r => r.2)).getD "Uncategorized"

/-- A 50-point route with strictly increasing distances 0, 1, …, 49 km. -/
def flatDistances : List ℚ := (List.range 50).map (fun n => (n : ℚ))

/-- A constant elevation series: 50 samples, all at 1000 m. -/
def flatElevations : List ℚ := List.replicate 50 (1000 : ℚ)

/-- The instantaneous gradient the scan computes at step `i`:
`(smoothed[i] - smoothed[i-1]) / (distance_diff * 1000) * 100`. -/
def stepGradient (distances smoothed : List ℚ) (i : ℕ) : ℚ :=
  (smoothed.getD i 0 - smoothed.getD (i - 1) 0) /
    ((distances.getD i 0 - distances.getD (i - 1) 0) * 1000) * 100

/-- All per-climb facts the invariant proof tracks about an emitted record. -/
def ClimbOK (cfg : Config) (distances smoothed elevations : List ℚ)
    (c : Climb) : Prop :=
  c.startIdx ≤ c.endIdx ∧
  (0 < cfg.minElevationGain → c.startIdx < c.endIdx) ∧
  cfg.minElevationGain ≤ c.elevationGain ∧
  cfg.minDistance ≤ c.distance ∧
  c.startDistance = distances.getD c.startIdx 0 ∧
  c.endDistance = distances.getD c.endIdx 0 ∧
  c.startElevation = elevations.getD c.startIdx 0 ∧
  c.endElevation = elevations.getD c.endIdx 0 ∧
  c.elevationGain = smoothed.getD c.endIdx 0 - smoothed.getD c.startIdx 0 ∧
  c.distance = distances.getD c.endIdx 0 - distances.getD c.startIdx 0

/-- The scan-loop invariant after the iterations at indices `1, …, k`. -/
def StateOK (cfg : Config) (distances smoothed elevations : List ℚ)
    (k : ℕ) (st : ScanState) : Prop :=
  (∀ c ∈ st.climbs, ClimbOK cfg distances smoothed elevations c ∧ c.endIdx < k) ∧
  (st.inClimb = true → 1 ≤ st.climbStartIdx ∧ st.climbStartIdx ≤ k ∧
    st.climbStartElevation = smoothed.getD st.climbStartIdx 0 ∧
    ∀ c ∈ st.climbs, c.endIdx < st.climbStartIdx) ∧
  List.Pairwise (fun a b => a.endIdx < b.startIdx) st.climbs

theorem smoothElevations_length (e : List ℚ) :
    (smoothElevations e).length = e.length := by
  unfold smoothElevations
  by_cases h : windowSize e > 1 <;> simp [h]

theorem scanStateAfter_zero (cfg : Config) (d sm e : List ℚ) :
    scanStateAfter cfg d sm e 0 = initState := rfl

theorem scanStateAfter_succ (cfg : Config) (d sm e : List ℚ) (k : ℕ) :
    scanStateAfter cfg d sm e (k + 1) =
      loopStep cfg d sm e (scanStateAfter cfg d sm e k) (k + 1) := by
  unfold scanStateAfter
  rw [List.range'_concat]
  simp [List.foldl_append, Nat.add_comm]

theorem loopStep_of_skip (cfg : Config) (d sm e : List ℚ) (st : ScanState)
    (i : ℕ) (h : ¬ d.getD i 0 - d.getD (i - 1) 0 > 0) :
    loopStep cfg d sm e st i = st := by
  simp only [loopStep]
  rw [if_neg h]

theorem loopStep_of_start (cfg : Config) (d sm e : List ℚ) (st : ScanState)
    (i : ℕ) (hdd : d.getD i 0 - d.getD (i - 1) 0 > 0)
    (hc : st.inClimb = false) (hg : stepGradient d sm i > cfg.minGradient) :
    loopStep cfg d sm e st i = ⟨true, i, sm.getD i 0, st.climbs⟩ := by
  simp only [stepGradient] at hg
  simp only [loopStep]
  rw [if_pos hdd, if_pos ⟨hc, hg⟩]

theorem loopStep_of_no_start (cfg : Config) (d sm e : List ℚ) (st : ScanState)
    (i : ℕ) (hdd : d.getD i 0 - d.getD (i - 1) 0 > 0)
    (hc : st.inClimb = false) (hg : ¬ stepGradient d sm i > cfg.minGradient) :
    loopStep cfg d sm e st i = st := by
  simp only [stepGradient] at hg
  simp only [loopStep]
  rw [if_pos hdd, if_neg (fun h12 => hg h12.2),
    if_neg (fun h12 => by rw [hc] at h12; exact absurd h12.1 (by decide))]

theorem loopStep_of_close (cfg : Config) (d sm e : List ℚ) (st : ScanState)
    (i : ℕ) (hdd : d.getD i 0 - d.getD (i - 1) 0 > 0)
    (hc : st.inClimb = true) (hg : stepGradient d sm i < 0) :
    loopStep cfg d sm e st i =
      ⟨false, st.climbStartIdx, st.climbStartElevation,
        st.climbs ++ closingEval cfg d sm e st.climbStartIdx
          st.climbStartElevation (i - 1)⟩ := by
  simp only [stepGradient] at hg
  simp only [loopStep, closingEval]
  rw [if_pos hdd, if_neg (by simp [hc]), if_pos ⟨hc, hg⟩]
  split_ifs <;> simp

theorem loopStep_of_no_close (cfg : Config) (d sm e : List ℚ) (st : ScanState)
    (i : ℕ) (hdd : d.getD i 0 - d.getD (i - 1) 0 > 0)
    (hc : st.inClimb = true) (hg : ¬ stepGradient d sm i < 0) :
    loopStep cfg d sm e st i = st := by
  simp only [stepGradient] at hg
  simp only [loopStep]
  rw [if_pos hdd,
    if_neg (fun h12 => by rw [hc] at h12; exact absurd h12.1 (by decide)),
    if_neg (fun h12 => hg h12.2)]

theorem mem_closingEval (cfg : Config) (d sm e : List ℚ) (sIdx : ℕ)
    (sElev : ℚ) (eIdx : ℕ) (c : Climb)
    (h : c ∈ closingEval cfg d sm e sIdx sElev eIdx) :
    c.startIdx = sIdx ∧ c.endIdx = eIdx ∧
    c.startDistance = d.getD sIdx 0 ∧ c.endDistance = d.getD eIdx 0 ∧
    c.startElevation = e.getD sIdx 0 ∧ c.endElevation = e.getD eIdx 0 ∧
    c.elevationGain = sm.getD eIdx 0 - sElev ∧
    c.distance = d.getD eIdx 0 - d.getD sIdx 0 ∧
    cfg.minElevationGain ≤ c.elevationGain ∧
    cfg.minDistance ≤ c.distance := by
  simp only [closingEval] at h
  split_ifs at h with h1 h2 h3
  · rw [List.mem_singleton] at h
    subst h
    exact ⟨rfl, rfl, rfl, rfl, rfl, rfl, rfl, rfl, h1, h2⟩
  · rw [List.mem_singleton] at h
    subst h
    exact ⟨rfl, rfl, rfl, rfl, rfl, rfl, rfl, rfl, h1, h2⟩
  · exact absurd h (List.not_mem_nil c)
  · exact absurd h (List.not_mem_nil c)

theorem closingEval_length (cfg : Config) (d sm e : List ℚ) (sIdx : ℕ)
    (sElev : ℚ) (eIdx : ℕ) :
    (closingEval cfg d sm e sIdx sElev eIdx).length ≤ 1 := by
  simp only [closingEval]
  split_ifs <;> simp

theorem pairwise_of_length_le_one {α : Type} {R : α → α → Prop} {l : List α}
    (h : l.length ≤ 1) : l.Pairwise R := by
  match l with
  | [] => exact List.Pairwise.nil
  | [a] => exact List.pairwise_singleton R a
  | a :: b :: t => simp at h

theorem stateOK_mono (cfg : Config) (d sm e : List ℚ) (k k' : ℕ)
    (st : ScanState) (hk : k ≤ k') (h : StateOK cfg d sm e k st) :
    StateOK cfg d sm e k' st := by
  obtain ⟨h1, h2, h3⟩ := h
  refine ⟨fun c hc => ⟨(h1 c hc).1, lt_of_lt_of_le (h1 c hc).2 hk⟩,
    fun hin => ?_, h3⟩
  obtain ⟨a, b, c9, d9⟩ := h2 hin
  exact ⟨a, le_trans b hk, c9, d9⟩

theorem stateOK_init (cfg : Config) (d sm e : List ℚ) :
    StateOK cfg d sm e 0 initState := by
  refine ⟨by simp [initState], by simp [initState], by simp [initState]⟩

theorem stateOK_step (cfg : Config) (d sm e : List ℚ) (k : ℕ) (st : ScanState)
    (h : StateOK cfg d sm e k st) :
    StateOK cfg d sm e (k + 1) (loopStep cfg d sm e st (k + 1)) := by
  by_cases hdd : d.getD (k + 1) 0 - d.getD (k + 1 - 1) 0 > 0
  · by_cases hc : st.inClimb = true
    · by_cases hg : stepGradient d sm (k + 1) < 0
      · rw [loopStep_of_close cfg d sm e st (k + 1) hdd hc hg]
        obtain ⟨h1, h2, h3⟩ := h
        obtain ⟨hs1, hs2, hs3, hs4⟩ := h2 hc
        simp only [Nat.add_sub_cancel]
        refine ⟨?_, fun hfalse => absurd hfalse Bool.false_ne_true, ?_⟩
        · intro c hcmem
          rw [List.mem_append] at hcmem
          rcases hcmem with hold | hnew
          · exact ⟨(h1 c hold).1, Nat.lt_succ_of_lt (h1 c hold).2⟩
          · obtain ⟨f1, f2, f3, f4, f5, f6, f7, f8, f9, f10⟩ :=
              mem_closingEval cfg d sm e st.climbStartIdx
                st.climbStartElevation k c hnew
            have hse : c.startIdx ≤ c.endIdx := by rw [f1, f2]; exact hs2
            refine ⟨?_, by rw [f2]; exact Nat.lt_succ_self k⟩
            unfold ClimbOK
            refine ⟨hse, ?_, f9, f10, ?_, ?_, ?_, ?_, ?_, ?_⟩
            · intro hpos
              rcases lt_or_eq_of_le hse with hlt | heq
              · exact hlt
              · exfalso
                have hzero : c.elevationGain = 0 := by
                  rw [f7, hs3, ← f1, heq, f2, sub_self]
                rw [hzero] at f9
                linarith
            · rw [f3, f1]
            · rw [f4, f2]
            · rw [f5, f1]
            · rw [f6, f2]
            · rw [f7, f1, f2, hs3]
            · rw [f8, f1, f2]
        · rw [List.pairwise_append]
          refine ⟨h3, pairwise_of_length_le_one
            (closingEval_length cfg d sm e st.climbStartIdx
              st.climbStartElevation k), ?_⟩
          intro a ha b hb
          obtain ⟨f1, _⟩ := mem_closingEval cfg d sm e st.climbStartIdx
            st.climbStartElevation k b hb
          rw [f1]
          exact hs4 a ha
      · rw [loopStep_of_no_close cfg d sm e st (k + 1) hdd hc hg]
        exact stateOK_mono cfg d sm e k (k + 1) st (Nat.le_succ k) h
    · have hcf : st.inClimb = false := by
        revert hc; cases st.inClimb <;> simp
      by_cases hg : stepGradient d sm (k + 1) > cfg.minGradient
      · rw [loopStep_of_start cfg d sm e st (k + 1) hdd hcf hg]
        obtain ⟨h1, h2, h3⟩ := h
        refine ⟨fun c hcm => ⟨(h1 c hcm).1, Nat.lt_succ_of_lt (h1 c hcm).2⟩,
          fun _ => ?_, h3⟩
        exact ⟨Nat.succ_le_succ (Nat.zero_le k), le_refl (k + 1), rfl,
          fun c hcm => Nat.lt_succ_of_lt (h1 c hcm).2⟩
      · rw [loopStep_of_no_start cfg d sm e st (k + 1) hdd hcf hg]
        exact stateOK_mono cfg d sm e k (k + 1) st (Nat.le_succ k) h
  · rw [loopStep_of_skip cfg d sm e st (k + 1) hdd]
    exact stateOK_mono cfg d sm e k (k + 1) st (Nat.le_succ k) h

theorem stateOK_scanStateAfter (cfg : Config) (d sm e : List ℚ) :
    ∀ k, StateOK cfg d sm e k (scanStateAfter cfg d sm e k)
  | 0 => stateOK_init cfg d sm e
  | k + 1 => by
      rw [scanStateAfter_succ]
      exact stateOK_step cfg d sm e k (scanStateAfter cfg d sm e k)
        (stateOK_scanStateAfter cfg d sm e k)

theorem detectClimbs_eq (cfg : Config) (d e : List ℚ)
    (hlen : d.length = e.length) :
    detectClimbs cfg d e =
      (scanStateAfter cfg d (smoothElevations e) e (d.length - 1)).climbs ++
        (if (scanStateAfter cfg d (smoothElevations e) e
              (d.length - 1)).inClimb = true then
          closingEval cfg d (smoothElevations e) e
            (scanStateAfter cfg d (smoothElevations e) e
              (d.length - 1)).climbStartIdx
            (scanStateAfter cfg d (smoothElevations e) e
              (d.length - 1)).climbStartElevation
            (d.length - 1)
        else []) := by
  have hsm : (smoothElevations e).length = e.length := smoothElevations_length e
  simp only [detectClimbs, closingEval, hsm, ← hlen]
  split_ifs <;> simp

theorem detectClimbs_spec (cfg : Config) (d e : List ℚ)
    (hlen : d.length = e.length) :
    (∀ c ∈ detectClimbs cfg d e,
      ClimbOK cfg d (smoothElevations e) e c ∧ c.endIdx ≤ d.length - 1) ∧
    List.Pairwise (fun a b => a.endIdx < b.startIdx) (detectClimbs cfg d e) := by
  obtain ⟨h1, h2, h3⟩ :=
    stateOK_scanStateAfter cfg d (smoothElevations e) e (d.length - 1)
  rw [detectClimbs_eq cfg d e hlen]
  constructor
  · intro c hc
    rw [List.mem_append] at hc
    rcases hc with hold | hnew
    · exact ⟨(h1 c hold).1, le_of_lt (h1 c hold).2⟩
    · by_cases hin : (scanStateAfter cfg d (smoothElevations e) e
          (d.length - 1)).inClimb = true
      · rw [if_pos hin] at hnew
        obtain ⟨hs1, hs2, hs3, hs4⟩ := h2 hin
        obtain ⟨f1, f2, f3, f4, f5, f6, f7, f8, f9, f10⟩ :=
          mem_closingEval cfg d (smoothElevations e) e _ _ _ c hnew
        have hse : c.startIdx ≤ c.endIdx := by rw [f1, f2]; exact hs2
        refine ⟨?_, by rw [f2]⟩
        unfold ClimbOK
        refine ⟨hse, ?_, f9, f10, ?_, ?_, ?_, ?_, ?_, ?_⟩
        · intro hpos
          rcases lt_or_eq_of_le hse with hlt | heq
          · exact hlt
          · exfalso
            have hzero : c.elevationGain = 0 := by
              rw [f7, hs3, ← f1, heq, f2, sub_self]
            rw [hzero] at f9
            linarith
        · rw [f3, f1]
        · rw [f4, f2]
        · rw [f5, f1]
        · rw [f6, f2]
        · rw [f7, f1, f2, hs3]
        · rw [f8, f1, f2]
      · rw [if_neg hin] at hnew
        exact absurd hnew (List.not_mem_nil c)
  · rw [List.pairwise_append]
    refine ⟨h3, ?_, ?_⟩
    · by_cases hin : (scanStateAfter cfg d (smoothElevations e) e
          (d.length - 1)).inClimb = true
      · rw [if_pos hin]
        exact pairwise_of_length_le_one (closingEval_length cfg d
          (smoothElevations e) e _ _ _)
      · rw [if_neg hin]
        exact List.Pairwise.nil
    · intro a ha b hb
      by_cases hin : (scanStateAfter cfg d (smoothElevations e) e
          (d.length - 1)).inClimb = true
      · rw [if_pos hin] at hb
        obtain ⟨hs1, hs2, hs3, hs4⟩ := h2 hin
        obtain ⟨f1, _⟩ := mem_closingEval cfg d (smoothElevations e) e _ _ _ b hb
        rw [f1]
        exact hs4 a ha
      · rw [if_neg hin] at hb
        exact absurd hb (List.not_mem_nil b)

theorem divChecked_of_ne (a b : ℚ) (h : b ≠ 0) :
    divChecked a b = some (a / b) := if_neg h

theorem mapM_eq_some_map {α β : Type} (f : α → Option β) (g : α → β) :
    ∀ l : List α, (∀ a ∈ l, f a = some (g a)) → l.mapM f = some (l.map g)
  | [], _ => rfl
  | a :: t, h => by
      simp only [List.mapM_cons, h a (List.mem_cons_self a t),
        mapM_eq_some_map f g t (fun x hx => h x (List.mem_cons_of_mem a hx)),
        List.map_cons]
      rfl

theorem foldlM_eq_some_foldl {α β : Type} (f : β → α → Option β)
    (g : β → α → β) (h : ∀ st a, f st a = some (g st a)) :
    ∀ (l : List α) (init : β), l.foldlM f init = some (l.foldl g init)
  | [], _ => rfl
  | a :: t, init => by
      simp only [List.foldlM_cons, h init a, List.foldl_cons]
      exact foldlM_eq_some_foldl f g h t (g init a)

theorem smoothedAtChecked_eq (e : List ℚ) (w i : ℕ) (h : w ≠ 0) :
    smoothedAtChecked e w i = some (smoothedAt e w i) := by
  unfold smoothedAtChecked smoothedAt
  exact divChecked_of_ne _ _ (Nat.cast_ne_zero.mpr h)

theorem smoothElevationsChecked_eq (e : List ℚ) :
    smoothElevationsChecked e = some (smoothElevations e) := by
  simp only [smoothElevationsChecked, smoothElevations]
  by_cases h : windowSize e > 1
  · rw [if_pos h, if_pos h]
    exact mapM_eq_some_map _ _ _
      (fun a _ => smoothedAtChecked_eq e (windowSize e) a (by omega))
  · rw [if_neg h, if_neg h]

theorem loopStepChecked_eq (cfg : Config) (d sm e : List ℚ) (st : ScanState)
    (i : ℕ) : loopStepChecked cfg d sm e st i = some (loopStep cfg d sm e st i) := by
  simp only [loopStepChecked, loopStep]
  by_cases hdd : d.getD i 0 - d.getD (i - 1) 0 > 0
  · rw [if_pos hdd, if_pos hdd,
      divChecked_of_ne _ _ (mul_ne_zero (ne_of_gt hdd) (by norm_num)),
      Option.some_bind]
    by_cases h1 : st.inClimb = false ∧
        (sm.getD i 0 - sm.getD (i - 1) 0) /
          ((d.getD i 0 - d.getD (i - 1) 0) * 1000) * 100 > cfg.minGradient
    · rw [if_pos h1, if_pos h1]
    · rw [if_neg h1, if_neg h1]
      by_cases h2 : st.inClimb = true ∧
          (sm.getD i 0 - sm.getD (i - 1) 0) /
            ((d.getD i 0 - d.getD (i - 1) 0) * 1000) * 100 < 0
      · rw [if_pos h2, if_pos h2]
        by_cases h3 : sm.getD (i - 1) 0 - st.climbStartElevation ≥
            cfg.minElevationGain
        · rw [if_pos h3, if_pos h3]
          by_cases h4 : d.getD (i - 1) 0 - d.getD st.climbStartIdx 0 > 0
          · rw [if_pos h4, if_pos h4,
              divChecked_of_ne _ _ (mul_ne_zero (ne_of_gt h4) (by norm_num))]
            simp only [Option.map_some', Option.some_bind]
            by_cases h5 : d.getD (i - 1) 0 - d.getD st.climbStartIdx 0 ≥
                cfg.minDistance
            · rw [if_pos h5, if_pos h5]
              try rfl
            · rw [if_neg h5, if_neg h5]
              try rfl
          · rw [if_neg h4, if_neg h4]
            simp only [Option.some_bind]
            by_cases h5 : d.getD (i - 1) 0 - d.getD st.climbStartIdx 0 ≥
                cfg.minDistance
            · rw [if_pos h5, if_pos h5]
              try rfl
            · rw [if_neg h5, if_neg h5]
              try rfl
        · rw [if_neg h3, if_neg h3]
          try rfl
      · rw [if_neg h2, if_neg h2]
        try rfl
  · rw [if_neg hdd, if_neg hdd]
    try rfl

theorem detectClimbsChecked_eq (cfg : Config) (d e : List ℚ) :
    detectClimbsChecked cfg d e = some (detectClimbs cfg d e) := by
  simp only [detectClimbsChecked, detectClimbs, scanStateAfter]
  rw [smoothElevationsChecked_eq]
  simp only [Option.some_bind]
  rw [foldlM_eq_some_foldl _ _
    (fun st a => loopStepChecked_eq cfg d (smoothElevations e) e st a)]
  rw [Option.some_bind]
  set final := (List.range' 1 (d.length - 1)).foldl
    (loopStep cfg d (smoothElevations e) e) initState with hfinal
  by_cases hin : final.inClimb = true
  · rw [if_pos hin, if_pos hin]
    by_cases h3 : (smoothElevations e).getD ((smoothElevations e).length - 1) 0 -
        final.climbStartElevation ≥ cfg.minElevationGain
    · rw [if_pos h3, if_pos h3]
      by_cases h4 : d.getD (d.length - 1) 0 - d.getD final.climbStartIdx 0 > 0
      · rw [if_pos h4, if_pos h4,
          divChecked_of_ne _ _ (mul_ne_zero (ne_of_gt h4) (by norm_num))]
        simp only [Option.map_some', Option.some_bind]
        by_cases h5 : d.getD (d.length - 1) 0 - d.getD final.climbStartIdx 0 ≥
            cfg.minDistance
        · rw [if_pos h5, if_pos h5]
          try rfl
        · rw [if_neg h5, if_neg h5]
          try rfl
      · rw [if_neg h4, if_neg h4]
        simp only [Option.some_bind]
        by_cases h5 : d.getD (d.length - 1) 0 - d.getD final.climbStartIdx 0 ≥
            cfg.minDistance
        · rw [if_pos h5, if_pos h5]
          try rfl
        · rw [if_neg h5, if_neg h5]
          try rfl
    · rw [if_neg h3, if_neg h3]
      try rfl
  · rw [if_neg hin, if_neg hin]
    try rfl

theorem foldl_fixed {α β : Type} (f : β → α → β) (st : β) :
    ∀ l : List α, (∀ a ∈ l, f st a = st) → l.foldl f st = st
  | [], _ => rfl
  | a :: t, h => by
      rw [List.foldl_cons, h a (List.mem_cons_self a t)]
      exact foldl_fixed f st t (fun x hx => h x (List.mem_cons_of_mem a hx))

theorem windowSize_le_one (e : List ℚ) (h : e.length < 20) :
    windowSize e ≤ 1 :=
  le_trans (Nat.min_le_right 5 (e.length / 10)) (by omega)

theorem smoothElevations_of_short (e : List ℚ) (h : e.length < 20) :
    smoothElevations e = e := by
  simp only [smoothElevations]
  rw [if_neg]
  have := windowSize_le_one e h
  omega

theorem getD_replicate (n : ℕ) (c : ℚ) (j : ℕ) (hj : j < n) :
    (List.replicate n c).getD j 0 = c := by
  rw [List.getD_eq_getElem?_getD, List.getElem?_replicate_of_lt hj]
  rfl

theorem scanStateAfter_short (cfg : Config) (d sm e : List ℚ)
    (hd : d.length < 2) :
    scanStateAfter cfg d sm e (d.length - 1) = initState := by
  have hk : d.length - 1 = 0 := by omega
  rw [hk]
  rfl

theorem detectClimbs_short (cfg : Config) (d e : List ℚ) (hd : d.length < 2) :
    detectClimbs cfg d e = [] := by
  simp only [detectClimbs]
  rw [scanStateAfter_short cfg d (smoothElevations e) e hd]
  rfl

theorem detectClimbs_flat (cfg : Config) (d : List ℚ) (n : ℕ) (c : ℚ)
    (hlen : d.length = n) (hn : n < 20) (hg : 0 < cfg.minGradient) :
    detectClimbs cfg d (List.replicate n c) = [] := by
  have hsm : smoothElevations (List.replicate n c) = List.replicate n c :=
    smoothElevations_of_short _ (by simp [hn])
  have hscan : scanStateAfter cfg d (List.replicate n c)
      (List.replicate n c) (d.length - 1) = initState := by
    apply foldl_fixed
    intro i hi
    rw [List.mem_range'_1] at hi
    by_cases hdd : d.getD i 0 - d.getD (i - 1) 0 > 0
    · apply loopStep_of_no_start cfg d _ _ initState i hdd rfl
      have hzero : stepGradient d (List.replicate n c) i = 0 := by
        rw [stepGradient, getD_replicate n c i (by omega),
          getD_replicate n c (i - 1) (by omega), sub_self, zero_div, zero_mul]
      rw [hzero]
      exact not_lt.mpr (le_of_lt hg)
    · exact loopStep_of_skip cfg d _ _ initState i hdd
  simp only [detectClimbs]
  rw [hsm, hscan]
  rfl

theorem categorizeClimb_eq_spec (m g a : ℚ) :
    categorizeClimb m g a = specCategorize m g a := by
  simp only [categorizeClimb, specCategorize]
  by_cases h1 : g * a > 8000 ∨ g > 1200
  · simp [List.find?, h1]
  · by_cases h2 : g * a > 5000 ∨ g > 800
    · simp [List.find?, h1, h2]
    · by_cases h3 : g * a > 3000 ∨ g > 500
      · simp [List.find?, h1, h2, h3]
      · by_cases h4 : g * a > 1500 ∨ g > 300
        · simp [List.find?, h1, h2, h3, h4]
        · by_cases h5 : g ≥ m
          · simp [List.find?, h1, h2, h3, h4, h5]
          · simp [List.find?, h1, h2, h3, h4, h5]

/-- C1: For every valid input (parallel distance/elevation sequences of equal
length ≥ 2, with a positive configured `min_elevation_gain_m`), every Climb
record emitted by `detect_climbs` satisfies `end_index > start_index`,
`elevation_gain_m ≥ min_elevation_gain_m` and `distance_km ≥ min_distance_km`. -/
theorem emitted_climbs_qualify (cfg : Config) (d e : List ℚ)
    (hlen : d.length = e.length) (hlen2 : 2 ≤ d.length)
    (hgain : 0 < cfg.minElevationGain) :
    ∀ c ∈ detectClimbs cfg d e, c.startIdx < c.endIdx ∧
      cfg.minElevationGain ≤ c.elevationGain ∧
      cfg.minDistance ≤ c.distance := by
  intro c hc
  have h := ((detectClimbs_spec cfg d e hlen).1 c hc).1
  unfold ClimbOK at h
  obtain ⟨g1, g2, g3, g4, _⟩ := h
  exact ⟨g2 hgain, g3, g4⟩

/-- C2 amended: the detector performs no input validation at all: sequences
with fewer than 2 points are accepted, the whole computation runs without
raising any error, and the empty climb list is returned silently. -/
theorem short_input_no_error (cfg : Config) (d e : List ℚ)
    (hd : d.length < 2) : detectClimbsChecked cfg d e = some [] := by
  rw [detectClimbsChecked_eq, detectClimbs_short cfg d e hd]

/-- C3: for every valid input, the climbs returned by `detect_climbs` are
pairwise disjoint — each climb's `start_index` is strictly greater than the
previous climb's `end_index` — and are ordered by non-decreasing
`end_index`. -/
theorem climbs_ordered_disjoint (cfg : Config) (d e : List ℚ)
    (hlen : d.length = e.length) :
    List.Pairwise (fun a b => a.endIdx < b.startIdx) (detectClimbs cfg d e) ∧
    List.Pairwise (fun a b => a.endIdx ≤ b.endIdx) (detectClimbs cfg d e) := by
  obtain ⟨h1, h2⟩ := detectClimbs_spec cfg d e hlen
  refine ⟨h2, List.Pairwise.imp_of_mem ?_ h2⟩
  intro a b ha hb hab
  have hbok := (h1 b hb).1
  unfold ClimbOK at hbok
  exact le_trans (le_of_lt hab) hbok.1

/-- C4: at every scan step with positive `distance_diff`: when not in a
climb, the climbing state is entered iff the gradient strictly exceeds
`min_gradient_pct`, recording `start_index = i` and the smoothed start
elevation `smoothed[i]`; when in a climb, the climb is closed iff the
gradient is strictly negative, with the closing evaluation at
`end_index = i - 1`. -/
theorem scan_transitions (cfg : Config) (d sm e : List ℚ) (st : ScanState)
    (i : ℕ) (hdd : d.getD i 0 - d.getD (i - 1) 0 > 0) :
    (st.inClimb = false →
      ((loopStep cfg d sm e st i).inClimb = true ↔
        stepGradient d sm i > cfg.minGradient) ∧
      (stepGradient d sm i > cfg.minGradient →
        loopStep cfg d sm e st i = ⟨true, i, sm.getD i 0, st.climbs⟩)) ∧
    (st.inClimb = true →
      ((loopStep cfg d sm e st i).inClimb = false ↔ stepGradient d sm i < 0) ∧
      (stepGradient d sm i < 0 →
        loopStep cfg d sm e st i = ⟨false, st.climbStartIdx,
          st.climbStartElevation,
          st.climbs ++ closingEval cfg d sm e st.climbStartIdx
            st.climbStartElevation (i - 1)⟩)) := by
  constructor
  · intro hc
    constructor
    · constructor
      · intro hin
        by_contra hg
        rw [loopStep_of_no_start cfg d sm e st i hdd hc hg, hc] at hin
        exact absurd hin (by decide)
      · intro hg
        rw [loopStep_of_start cfg d sm e st i hdd hc hg]
    · intro hg
      rw [loopStep_of_start cfg d sm e st i hdd hc hg]
  · intro hc
    constructor
    · constructor
      · intro hin
        by_contra hg
        rw [loopStep_of_no_close cfg d sm e st i hdd hc hg, hc] at hin
        exact absurd hin (by decide)
      · intro hg
        rw [loopStep_of_close cfg d sm e st i hdd hc hg]
    · intro hg
      exact loopStep_of_close cfg d sm e st i hdd hc hg

/-- C5: the classifier returns exactly the category of the first matching
row of the ordered threshold table over `score = gain * avg_gradient`
(HC / 1 / 2 / 3 / 4 / Uncategorized), and in particular a gain of 1300 m at
1% average gradient is HC via the `gain > 1200` branch, whatever the
configured minimum gain. -/
theorem classifier_first_match (m g a : ℚ) :
    categorizeClimb m g a = specCategorize m g a ∧
    categorizeClimb m 1300 1 = "HC" := by
  refine ⟨categorizeClimb_eq_spec m g a, ?_⟩
  unfold categorizeClimb
  rw [if_pos (Or.inr (by norm_num))]

/-- C6 amended: a monotonically flat route (constant elevation) yields zero
climbs provided the route has fewer than 20 points, so that the smoothing
window is ≤ 1 and smoothing is a no-op; once the smoothing window is
active, the zero-padded boundary convolution can fabricate nonzero
gradients at the edges of a constant-elevation route and emit a climb. -/
theorem flat_route_no_climbs (cfg : Config) (d : List ℚ) (n : ℕ) (c : ℚ)
    (hlen : d.length = n) (hn : n < 20) (hg : 0 < cfg.minGradient) :
    detectClimbs cfg d (List.replicate n c) = [] :=
  detectClimbs_flat cfg d n c hlen hn hg

/-- C7: if the scan ends while still in the climbing state, the result is
the scanned climbs followed by exactly the same closing evaluation used
inside the loop, applied with `end_index = N - 1` and the smoothed value at
the final index, so a qualifying open climb is emitted with the final index
as its `end_index`. -/
theorem end_of_route_close (cfg : Config) (d e : List ℚ)
    (hlen : d.length = e.length)
    (hin : (scanStateAfter cfg d (smoothElevations e) e
      (d.length - 1)).inClimb = true) :
    detectClimbs cfg d e =
      (scanStateAfter cfg d (smoothElevations e) e (d.length - 1)).climbs ++
        closingEval cfg d (smoothElevations e) e
          (scanStateAfter cfg d (smoothElevations e) e
            (d.length - 1)).climbStartIdx
          (scanStateAfter cfg d (smoothElevations e) e
            (d.length - 1)).climbStartElevation
          (d.length - 1) := by
  rw [detectClimbs_eq cfg d e hlen, if_pos hin]

/-- C8: every emitted climb reports `start_distance_km`, `end_distance_km`,
`start_elevation_m` and `end_elevation_m` from the raw, unsmoothed input
sequences at `start_index`/`end_index`, while `elevation_gain_m` is the
difference of the smoothed series at those indices. -/
theorem reported_values_from_raw (cfg : Config) (d e : List ℚ)
    (hlen : d.length = e.length) :
    ∀ c ∈ detectClimbs cfg d e,
      c.startDistance = d.getD c.startIdx 0 ∧
      c.endDistance = d.getD c.endIdx 0 ∧
      c.startElevation = e.getD c.startIdx 0 ∧
      c.endElevation = e.getD c.endIdx 0 ∧
      c.elevationGain = (smoothElevations e).getD c.endIdx 0 -
        (smoothElevations e).getD c.startIdx 0 := by
  intro c hc
  have h := ((detectClimbs_spec cfg d e hlen).1 c hc).1
  unfold ClimbOK at h
  obtain ⟨_, _, _, _, g5, g6, g7, g8, g9, _⟩ := h
  exact ⟨g5, g6, g7, g8, g9⟩

/-- C9: no division by zero can occur anywhere in `detect_climbs`: the
instrumented detector, in which every division the Python code performs is
checked, always succeeds and agrees with the plain embedding; moreover a
step with `distance_diff ≤ 0` is skipped with no state change at all. -/
theorem no_division_by_zero (cfg : Config) (d e : List ℚ) :
    detectClimbsChecked cfg d e = some (detectClimbs cfg d e) ∧
    ∀ (sm : List ℚ) (st : ScanState) (i : ℕ),
      d.getD i 0 - d.getD (i - 1) 0 ≤ 0 → loopStep cfg d sm e st i = st :=
  ⟨detectClimbsChecked_eq cfg d e,
   fun sm st i h => loopStep_of_skip cfg d sm e st i (not_lt.mpr h)⟩

/-- C10: inputs whose sequences have fewer than 2 points (including length
0) make `detect_climbs` return the empty list without any failure: the
smoothing window is ≤ 1 so smoothing is the identity, and the scan loop
never runs, leaving the `in_climb` flag false. -/
theorem short_input_empty (cfg : Config) (d e : List ℚ)
    (hd : d.length < 2) (he : e.length < 2) :
    detectClimbs cfg d e = [] ∧ windowSize e ≤ 1 ∧ smoothElevations e = e ∧
    (scanStateAfter cfg d (smoothElevations e) e
      (d.length - 1)).inClimb = false :=
  ⟨detectClimbs_short cfg d e hd, windowSize_le_one e (by omega),
   smoothElevations_of_short e (by omega),
   by rw [scanStateAfter_short cfg d (smoothElevations e) e hd]; rfl⟩

section ConcreteEvaluations

attribute [local semireducible] Rat.add Rat.mul Rat.sub Rat.inv Rat.ofScientific

set_option maxRecDepth 100000

/-- C1 witness: the Scenario-A route emits one qualifying climb. -/
theorem emitted_climbs_qualify_witness :
    ([0, 1, 2, 3, 4] : List ℚ).length =
      ([100, 130, 170, 220, 215] : List ℚ).length ∧
    2 ≤ ([0, 1, 2, 3, 4] : List ℚ).length ∧
    0 < defaultConfig.minElevationGain ∧
    ∀ c ∈ detectClimbs defaultConfig [0, 1, 2, 3, 4] [100, 130, 170, 220, 215],
      c.startIdx < c.endIdx ∧
      defaultConfig.minElevationGain ≤ c.elevationGain ∧
      defaultConfig.minDistance ≤ c.distance :=
  ⟨rfl, by decide, by decide,
   emitted_climbs_qualify defaultConfig [0, 1, 2, 3, 4]
     [100, 130, 170, 220, 215] rfl (by decide) (by decide)⟩

/-- C2 counterexample: on an input with fewer than 2 points the detector
does not fail fast with an error: even with every division checked it runs
to completion and silently returns the empty result, contrary to the
claimed precondition failure. -/
theorem no_precondition_failure_on_empty :
    detectClimbsChecked defaultConfig [] [] = some [] ∧
    detectClimbs defaultConfig [] [] = [] := by
  exact ⟨by decide, by decide⟩

/-- C2 witness: a 0-point input is accepted and yields `some []`. -/
theorem short_input_no_error_witness :
    ([] : List ℚ).length < 2 ∧
    detectClimbsChecked defaultConfig [] [1, 2, 3] = some [] :=
  ⟨by decide, short_input_no_error defaultConfig [] [1, 2, 3] (by decide)⟩

/-- C3 witness: a route with two climbs separated by a descent. -/
theorem climbs_ordered_disjoint_witness :
    ([0, 1, 2, 3, 4, 5, 6] : List ℚ).length =
      ([0, 100, 200, 100, 200, 300, 0] : List ℚ).length ∧
    (List.Pairwise (fun a b => a.endIdx < b.startIdx)
      (detectClimbs defaultConfig [0, 1, 2, 3, 4, 5, 6]
        [0, 100, 200, 100, 200, 300, 0]) ∧
     List.Pairwise (fun a b => a.endIdx ≤ b.endIdx)
      (detectClimbs defaultConfig [0, 1, 2, 3, 4, 5, 6]
        [0, 100, 200, 100, 200, 300, 0])) :=
  ⟨rfl, climbs_ordered_disjoint defaultConfig [0, 1, 2, 3, 4, 5, 6]
    [0, 100, 200, 100, 200, 300, 0] rfl⟩

/-- C4 witness: a concrete step with positive distance difference where the
gradient exceeds the threshold enters the climbing state at index 1. -/
theorem scan_transitions_witness :
    (([0, 1] : List ℚ).getD 1 0 - ([0, 1] : List ℚ).getD (1 - 1) 0 > 0) ∧
    ((loopStep defaultConfig [0, 1] [0, 50] [0, 50] initState 1).inClimb =
        true ↔
      stepGradient [0, 1] [0, 50] 1 > defaultConfig.minGradient) ∧
    loopStep defaultConfig [0, 1] [0, 50] [0, 50] initState 1 =
      ⟨true, 1, (50 : ℚ), []⟩ := by
  refine ⟨by decide,
    ((scan_transitions defaultConfig [0, 1] [0, 50] [0, 50] initState 1
      (by decide)).1 rfl).1, ?_⟩
  have h := ((scan_transitions defaultConfig [0, 1] [0, 50] [0, 50] initState 1
    (by decide)).1 rfl).2 (by decide)
  rw [h]
  decide

/-- C6 counterexample: a monotonically flat 50-point route at a constant
1000 m, with strictly increasing distances and the positive default
thresholds, makes `detect_climbs` emit a climb: the zero-padded boundary of
the `mode='same'` moving average fabricates rising gradients at the start
of the route and a falling one at its end. -/
theorem flat_route_emits_climb :
    0 < defaultConfig.minGradient ∧ 0 < defaultConfig.minElevationGain ∧
    flatElevations = List.replicate 50 (1000 : ℚ) ∧
    flatDistances.length = flatElevations.length ∧
    2 ≤ flatDistances.length ∧
    (∀ i, i < 49 → flatDistances.getD i 0 < flatDistances.getD (i + 1) 0) ∧
    detectClimbs defaultConfig flatDistances flatElevations ≠ [] := by
  exact ⟨by decide, by decide, rfl, by decide, by decide, by decide, by decide⟩

/-- C6 witness: a flat 3-point route yields no climbs. -/
theorem flat_route_no_climbs_witness :
    ([0, 1, 2] : List ℚ).length = 3 ∧ 3 < 20 ∧
    0 < defaultConfig.minGradient ∧
    detectClimbs defaultConfig [0, 1, 2] (List.replicate 3 (500 : ℚ)) = [] :=
  ⟨rfl, by decide, by decide,
   flat_route_no_climbs defaultConfig [0, 1, 2] 3 500 rfl (by decide)
     (by decide)⟩

/-- C7 witness: a route that is still climbing at its last sample emits the
open climb through the closing evaluation at the final index. -/
theorem end_of_route_close_witness :
    ([0, 1, 2] : List ℚ).length = ([0, 100, 200] : List ℚ).length ∧
    (scanStateAfter defaultConfig [0, 1, 2]
      (smoothElevations [0, 100, 200]) [0, 100, 200]
      (([0, 1, 2] : List ℚ).length - 1)).inClimb = true ∧
    detectClimbs defaultConfig [0, 1, 2] [0, 100, 200] =
      (scanStateAfter defaultConfig [0, 1, 2]
        (smoothElevations [0, 100, 200]) [0, 100, 200]
        (([0, 1, 2] : List ℚ).length - 1)).climbs ++
        closingEval defaultConfig [0, 1, 2] (smoothElevations [0, 100, 200])
          [0, 100, 200]
          (scanStateAfter defaultConfig [0, 1, 2]
            (smoothElevations [0, 100, 200]) [0, 100, 200]
            (([0, 1, 2] : List ℚ).length - 1)).climbStartIdx
          (scanStateAfter defaultConfig [0, 1, 2]
            (smoothElevations [0, 100, 200]) [0, 100, 200]
            (([0, 1, 2] : List ℚ).length - 1)).climbStartElevation
          (([0, 1, 2] : List ℚ).length - 1) :=
  ⟨rfl, by decide,
   end_of_route_close defaultConfig [0, 1, 2] [0, 100, 200] rfl (by decide)⟩

/-- C8 witness: the Scenario-A route's emitted climb reports raw values at
its indices and the smoothed difference as its gain. -/
theorem reported_values_from_raw_witness :
    ([0, 1, 2, 3, 4] : List ℚ).length =
      ([100, 130, 170, 220, 215] : List ℚ).length ∧
    ∀ c ∈ detectClimbs defaultConfig [0, 1, 2, 3, 4] [100, 130, 170, 220, 215],
      c.startDistance = ([0, 1, 2, 3, 4] : List ℚ).getD c.startIdx 0 ∧
      c.endDistance = ([0, 1, 2, 3, 4] : List ℚ).getD c.endIdx 0 ∧
      c.startElevation = ([100, 130, 170, 220, 215] : List ℚ).getD c.startIdx 0 ∧
      c.endElevation = ([100, 130, 170, 220, 215] : List ℚ).getD c.endIdx 0 ∧
      c.elevationGain =
        (smoothElevations [100, 130, 170, 220, 215]).getD c.endIdx 0 -
        (smoothElevations [100, 130, 170, 220, 215]).getD c.startIdx 0 :=
  ⟨rfl, reported_values_from_raw defaultConfig [0, 1, 2, 3, 4]
    [100, 130, 170, 220, 215] rfl⟩

/-- C9 witness: the checked detector agrees with the plain one on a concrete
route, and a concrete zero-distance step leaves the state unchanged. -/
theorem no_division_by_zero_witness :
    detectClimbsChecked defaultConfig [0, 1] [0, 50] =
      some (detectClimbs defaultConfig [0, 1] [0, 50]) ∧
    ([0, 0] : List ℚ).getD 1 0 - ([0, 0] : List ℚ).getD (1 - 1) 0 ≤ 0 ∧
    loopStep defaultConfig [0, 0] [0, 5] [0, 5] initState 1 = initState :=
  ⟨(no_division_by_zero defaultConfig [0, 1] [0, 50]).1, by decide,
   (no_division_by_zero defaultConfig [0, 0] [0, 5]).2 [0, 5] initState 1
     (by decide)⟩

/-- C10 witness: a 0-point distance list with a 1-point elevation list gives
the empty result, an inactive smoothing window and a false climbing flag. -/
theorem short_input_empty_witness :
    ([] : List ℚ).length < 2 ∧ ([7] : List ℚ).length < 2 ∧
    (detectClimbs defaultConfig [] [7] = [] ∧ windowSize [7] ≤ 1 ∧
     smoothElevations [7] = [7] ∧
     (scanStateAfter defaultConfig [] (smoothElevations [7]) [7]
       (([] : List ℚ).length - 1)).inClimb = false) :=
  ⟨by decide, by decide,
   short_input_empty defaultConfig [] [7] (by decide) (by decide)⟩

end ConcreteEvaluations

end PyAscent
